import Mathlib

/-!
Verification development for the wallet state coordinator of
`src/wallet/src/hooks/useBitcoinWalletStore.js` (Cross-Platform-Bitcoin-Wallet).

The coordinator is shallowly embedded: pure helpers become Lean functions,
the Zustand store state becomes an explicit `Store` value threaded through
operations, and the external collaborators (Mint Client, Relay Client,
bech32 decoding, wallet refresh) become explicit oracle parameters, since
the repository consumes them through narrow interfaces.  Fallible external
calls return `Except String`, mirroring thrown JS exceptions carrying a
message.  Every operation additionally returns a trace of the external
calls it performed, so that claims about "zero mint calls", retry counts
and backoff can be stated.
-/

namespace RBE

/-- A Cashu proof: bearer token of value.  Mirrors the JS proof objects
(`amount`, `secret`, `C`); the issuing mint is carried on the proof so that
`state.getProofs({ mint })` can filter by mint, as the NDK wallet state does. -/
structure Proof where
  amount : Nat
  secret : String
  C : String
  mint : String
deriving DecidableEq

/-- Sum of proof amounts, as in `proofs.reduce((sum, p) => sum + p.amount, 0)`
(useBitcoinWalletStore.js:193 and :844). -/
def sumProofs (ps : List Proof) : Nat :=
  ps.foldl (fun s p => s + p.amount) 0

/-- Mint-reported proof state (Cashu NUT-07), compared against the literal
string "UNSPENT" in the source. -/
inductive MintProofState
  | UNSPENT
  | SPENT
  | PENDING
deriving DecidableEq

/-- Index-aligned filtering of proofs by reported state, as in
`proofs.filter((proof, i) => proofStates[i]?.state === "UNSPENT")`
(useBitcoinWalletStore.js:188-191 and :831-834).  A missing entry
(`undefined` in JS) never compares equal to "UNSPENT", so a proof with no
aligned state entry is dropped. -/
def filterUnspent : List Proof → List MintProofState → List Proof
  | [], _ => []
  | _ :: _, [] => []
  | p :: ps, s :: ss =>
    if s = .UNSPENT then p :: filterUnspent ps ss else filterUnspent ps ss

/-- The dynamically-typed value of `wallet.balance` handled by
`extractBalance` (useBitcoinWalletStore.js:118-126): null/undefined, a
number, an object with an `amount` field, a parseable string, or anything
else (which `Number(...)` turns into NaN). -/
inductive BalVal
  | missing
  | num (n : Nat)
  | obj (amount : Nat)
  | strv (s : String)
  | other
deriving DecidableEq

/-- Normalization of `wallet.balance` to a number
(useBitcoinWalletStore.js:118-126). -/
def extractBalance : BalVal → Nat
  | .missing => 0
  | .num n => n
  | .obj a => a
  | .strv s => (s.toNat?).getD 0
  | .other => 0

/-- The NDK Cashu wallet as the coordinator sees it: its proof state
(`wallet.state`) and its raw `balance` property. -/
structure Wallet where
  proofs : List Proof
  balanceField : BalVal
deriving DecidableEq

/-- Default mint URL (useBitcoinWalletStore.js:82). -/
def DEFAULT_MINT : String := "https://mint.minibits.cash/Bitcoin"

/-- Default recipient npub (useBitcoinWalletStore.js:99-100). -/
def DEFAULT_RECEIVER : String :=
  "npub14vskcp90k6gwp6sxjs2jwwqpcmahg6wz3h5vzq0yn6crrsq0utts52axlt"

/-- The proofs the wallet state holds for one mint, as returned by
`wallet.state.getProofs({ mint })`. -/
def getProofs (w : Wallet) (mintUrl : String) : List Proof :=
  w.proofs.filter (fun p => p.mint == mintUrl)

/-- Result of the mint split `cashuWallet.send(amount, proofs, {pubkey})`:
change proofs to keep and recipient-locked proofs to send
(useBitcoinWalletStore.js:853-859). -/
structure SplitResult where
  keep : List Proof
  send : List Proof
deriving DecidableEq

/-- The Mint Client interface consumed by the coordinator:
`checkProofsStates(proofs)` and the atomic split
`send(amount, inputProofs, {pubkey})`.  Both may throw, modelled by
`Except String` carrying the JS error message. -/
structure MintClient where
  checkProofsStates : List Proof → Except String (List MintProofState)
  split : Nat → List Proof → Option String → Except String SplitResult

/-- Balance reconciliation `verifyBalanceWithMint(wallet, mintUrl)`
(useBitcoinWalletStore.js:176-200): read the local proofs for the mint,
return 0 if none, otherwise batch-check their states and sum the UNSPENT
ones; on any Mint Client failure fall back to `extractBalance(wallet.balance)`
instead of raising. -/
def verifyBalanceWithMint (mc : MintClient) (w : Wallet) (mintUrl : String) : Nat :=
  let proofs := getProofs w mintUrl
  if proofs.length = 0 then 0
  else
    match mc.checkProofsStates proofs with
    | .ok states => sumProofs (filterUnspent proofs states)
    | .error _ => extractBalance w.balanceField

/-- The Zustand store state relevant to the coordinator
(useBitcoinWalletStore.js:202-222): the wallet, the displayed balance, the
last error message, the current invoice, and whether an NDK relay
connection is present. -/
structure Store where
  cashuWallet : Option Wallet
  walletBalance : Nat
  errorMessage : Option String
  invoice : String
  ndkPresent : Bool
deriving DecidableEq

/-- `verifyAndUpdateBalance` (useBitcoinWalletStore.js:264-271): returns 0
untouched when no wallet is initialized, otherwise reconciles against the
default mint and stores the result in `walletBalance`. -/
def verifyAndUpdateBalance (mc : MintClient) (st : Store) : Nat × Store :=
  match st.cashuWallet with
  | Option.none => (0, st)
  | some w =>
    let b := verifyBalanceWithMint mc w DEFAULT_MINT
    (b, { st with walletBalance := b })

/-- Lowercasing, as `e.message?.toLowerCase()`. -/
def lowerStr (s : String) : String := String.mk (s.data.map Char.toLower)

/-- Character-list version of `startsWith`. -/
def startsWithChars : List Char → List Char → Bool
  | [], _ => true
  | _ :: _, [] => false
  | a :: as, b :: bs => a == b && startsWithChars as bs

/-- Character-list version of JS `String.prototype.includes`. -/
def hasSubChars (pat : List Char) : List Char → Bool
  | [] => startsWithChars pat []
  | b :: bs => startsWithChars pat (b :: bs) || hasSubChars pat bs

/-- JS `s.includes(pat)`. -/
def includesSub (s pat : String) : Bool := hasSubChars pat.data s.data

/-- The stale-proof error classification of the send catch block
(useBitcoinWalletStore.js:901-904): lowercase message containing one of
"already spent", "no valid proofs", "insufficient valid". -/
def isSpentErrorMsg (msg : String) : Bool :=
  includesSub (lowerStr msg) "already spent" ||
  includesSub (lowerStr msg) "no valid proofs" ||
  includesSub (lowerStr msg) "insufficient valid"

/-- A Nostr event as relevant to payment-preference parsing: its kind and
its tags (arrays of strings). -/
structure NostrEvent where
  kind : Nat
  tags : List (List String)
deriving DecidableEq

/-- An NDK fetch filter `{ kinds, authors, limit }`. -/
structure Filter where
  kinds : List Nat
  authors : List String
  limit : Nat
deriving DecidableEq

/-- Result of `fetchUserPaymentInfo`: `{ mints, p2pkPubkey, relays }`. -/
structure PaymentInfo where
  mints : List String
  p2pkPubkey : Option String
  relays : List String
deriving DecidableEq

/-- The NIP-61 tag-parsing loop of `fetchUserPaymentInfo`
(useBitcoinWalletStore.js:620-625): `const [t, v1] = tag` with JS
truthiness of `v1` (absent or empty string is falsy); a later "pubkey" tag
overwrites an earlier one. -/
def collectPrefsAux : List (List String) → List String → List String → Option String →
    List String × List String × Option String
  | [], ms, rs, pk => (ms, rs, pk)
  | tag :: rest, ms, rs, pk =>
    match tag.head?, tag.get? 1 with
    | some t, some v1 =>
      if t = "mint" ∧ v1 ≠ "" then collectPrefsAux rest (ms ++ [v1]) rs pk
      else if t = "relay" ∧ v1 ≠ "" then collectPrefsAux rest ms (rs ++ [v1]) pk
      else if t = "pubkey" ∧ v1 ≠ "" then collectPrefsAux rest ms rs (some v1)
      else collectPrefsAux rest ms rs pk
    | _, _ => collectPrefsAux rest ms rs pk

/-- `fetchUserPaymentInfo(recipientNpub)` (useBitcoinWalletStore.js:588-635),
parameterized by the external bech32 decoder and the relay fetch oracle
(which may throw).  Also returns the list of fetch filters issued, to state
the single-bounded-fetch property.  Fallbacks mirror the source: no NDK or
undecodable npub short-circuits with a null p2pk key and no fetch; an empty
result or a thrown fetch falls back to the default mint and the recipient's
hex key. -/
def fetchUserPaymentInfo (decodeKey : String → Option String)
    (fetchEvents : Filter → Except String (List NostrEvent))
    (ndkPresent : Bool) (recipientNpub : String) : PaymentInfo × List Filter :=
  if ndkPresent = false then (⟨[DEFAULT_MINT], Option.none, []⟩, [])
  else
    match decodeKey recipientNpub with
    | Option.none => (⟨[DEFAULT_MINT], Option.none, []⟩, [])
    | some hexNpub =>
      let fl : Filter := ⟨[10019], [hexNpub], 1⟩
      match fetchEvents fl with
      | .error _ => (⟨[DEFAULT_MINT], some hexNpub, []⟩, [fl])
      | .ok eventsArray =>
        match eventsArray with
        | [] => (⟨[DEFAULT_MINT], some hexNpub, []⟩, [fl])
        | userEvent :: _ =>
          let parsed := collectPrefsAux userEvent.tags [] [] Option.none
          let mints := if parsed.1 = [] then [DEFAULT_MINT] else parsed.1
          let pk := match parsed.2.2 with
            | Option.none => some hexNpub
            | some v => some v
          (⟨mints, pk, parsed.2.1⟩, [fl])

/-- The kind-9321 nutzap event built by `send`
(useBitcoinWalletStore.js:873-886), keeping the structured content of its
tags: the serialized locked proofs, the "amount" tag value, the unit, the
mint URL and the recipient hex key (null when decoding failed). -/
structure NutzapEvent where
  kind : Nat
  content : String
  sendProofs : List Proof
  amount : Nat
  unit : String
  mintUrl : String
  recipientHex : Option String
deriving DecidableEq

/-- Trace of external calls performed by a coordinator operation. -/
inductive Call
  | refresh
  | relayFetch (f : Filter)
  | mintCheck (ps : List Proof)
  | mintSplit (amount : Nat) (inputs : List Proof)
  | relayPublish
  | balanceVerify
  | sleep (ms : Nat)
deriving DecidableEq

/-- Environment of one send attempt: the wallet refresh performed by
`initWallet()`, the bech32 decoder, the relay fetch used by
`fetchUserPaymentInfo`, the Mint Client, and the relay publish of the
nutzap event. -/
structure SendEnv where
  refresh : Store → Store
  decodeKey : String → Option String
  fetchEvents : Filter → Except String (List NostrEvent)
  mint : MintClient
  publish : NutzapEvent → Except String Unit

/-- Outcome of a single send attempt: an early `return false` before the
try block, success, or a thrown error message reaching the catch block. -/
inductive AttemptResult
  | earlyFalse
  | succeeded
  | thrown (msg : String)
deriving DecidableEq

/-- Full result of one send attempt: outcome, resulting store, call trace,
the published nutzap event (success only) and the successful split, with
the valid input proofs handed to it (recorded once the split returns). -/
structure AttemptOut where
  result : AttemptResult
  st : Store
  calls : List Call
  nutzap : Option NutzapEvent
  splitIn : Option (List Proof × SplitResult)
deriving DecidableEq

/-- `state.update({ store, destroy, mint })`: remove every proof whose
secret matches a destroyed proof, then append the stored proofs
(useBitcoinWalletStore.js:866-870; proof identity is the secret). -/
def stateUpdate (w : Wallet) (storeProofs destroyProofs : List Proof) : Wallet :=
  { w with proofs :=
      (w.proofs.filter (fun p => !(destroyProofs.any (fun d => d.secret == p.secret)))) ++
        storeProofs }

/-- One attempt of `send(recipientNpub, retryCount)`
(useBitcoinWalletStore.js:774-896), everything up to and including the try
block.  In order: wallet-present guard, `walletBalance < 1` guard (the
amount is the hardcoded `const amount = 1`), wallet refresh via
`initWallet()`, recipient payment-info lookup, proof fetch, batch state
check, UNSPENT filtering, valid-balance check, mint split with P2PK lock,
local state update (store keep, destroy ALL fetched proofs), nutzap
publish, and final balance verification. -/
def sendAttempt (e : SendEnv) (recipientNpub : String) (st : Store) : AttemptOut :=
  match st.cashuWallet with
  | Option.none => ⟨.earlyFalse, st, [], Option.none, Option.none⟩
  | some _ =>
    if st.walletBalance < 1 then ⟨.earlyFalse, st, [], Option.none, Option.none⟩
    else
      let stR := e.refresh st
      match stR.cashuWallet with
      | Option.none => ⟨.earlyFalse, stR, [Call.refresh], Option.none, Option.none⟩
      | some w =>
        let pinfo := fetchUserPaymentInfo e.decodeKey e.fetchEvents stR.ndkPresent recipientNpub
        let baseCalls := Call.refresh :: pinfo.2.map Call.relayFetch
        let proofs := getProofs w DEFAULT_MINT
        if proofs = [] then
          ⟨.thrown "No proofs available", stR, baseCalls, Option.none, Option.none⟩
        else
          match e.mint.checkProofsStates proofs with
          | .error msg =>
            ⟨.thrown msg, stR, baseCalls ++ [Call.mintCheck proofs], Option.none, Option.none⟩
          | .ok proofStates =>
            let validProofs := filterUnspent proofs proofStates
            let callsC := baseCalls ++ [Call.mintCheck proofs]
            if validProofs = [] then
              ⟨.thrown "No valid proofs available", stR, callsC, Option.none, Option.none⟩
            else
              let validBalance := sumProofs validProofs
              if validBalance < 1 then
                ⟨.thrown ("Insufficient valid balance: " ++ toString validBalance), stR,
                  callsC, Option.none, Option.none⟩
              else
                let recipientHex := e.decodeKey recipientNpub
                match e.mint.split 1 validProofs pinfo.1.p2pkPubkey with
                | .error msg =>
                  ⟨.thrown msg, stR, callsC ++ [Call.mintSplit 1 validProofs],
                    Option.none, Option.none⟩
                | .ok res =>
                  let w2 := stateUpdate w res.keep proofs
                  let st2 := { stR with cashuWallet := some w2 }
                  let ev : NutzapEvent :=
                    ⟨9321, "Robots Building Education", res.send, 1, "sat", DEFAULT_MINT,
                      recipientHex⟩
                  let callsS := callsC ++ [Call.mintSplit 1 validProofs]
                  match e.publish ev with
                  | .error msg =>
                    ⟨.thrown msg, st2, callsS ++ [Call.relayPublish],
                      Option.none, some (validProofs, res)⟩
                  | .ok _ =>
                    let vb := verifyAndUpdateBalance e.mint st2
                    ⟨.succeeded, vb.2, callsS ++ [Call.relayPublish, Call.balanceVerify],
                      some ev, some (validProofs, res)⟩

/-- Overall result of `send`: the returned boolean, the final store, the
accumulated call trace, the number of attempts performed, and the nutzap
and split of the final (successful) attempt when present. -/
structure SendOut where
  ok : Bool
  st : Store
  calls : List Call
  attempts : Nat
  nutzap : Option NutzapEvent
  splitIn : Option (List Proof × SplitResult)
deriving DecidableEq

/-- Retry cap (useBitcoinWalletStore.js:786). -/
def MAX_RETRIES : Nat := 2

/-- The full `send` with its retry-by-recursion
(useBitcoinWalletStore.js:897-918): a thrown message in the stale class
with `retryCount < MAX_RETRIES` sleeps 500ms and re-enters the whole
operation with `retryCount + 1`; any other termination of the catch sets
the error message, re-verifies the balance and returns false.  The
environment is indexed by the attempt number, since each attempt re-reads
the external world. -/
def sendRec (envs : Nat → SendEnv) (recipientNpub : String) (st : Store)
    (retryCount : Nat) : SendOut :=
  let a := sendAttempt (envs retryCount) recipientNpub st
  match a.result with
  | .earlyFalse => ⟨false, a.st, a.calls, 1, a.nutzap, a.splitIn⟩
  | .succeeded => ⟨true, a.st, a.calls, 1, a.nutzap, a.splitIn⟩
  | .thrown msg =>
    if h : isSpentErrorMsg msg = true ∧ retryCount < MAX_RETRIES then
      let inner := sendRec envs recipientNpub a.st (retryCount + 1)
      ⟨inner.ok, inner.st, a.calls ++ Call.sleep 500 :: inner.calls,
        inner.attempts + 1, inner.nutzap, inner.splitIn⟩
    else
      let st2 := { a.st with errorMessage := some msg }
      let vb := verifyAndUpdateBalance (envs retryCount).mint st2
      ⟨false, vb.2, a.calls ++ [Call.balanceVerify], 1, a.nutzap, a.splitIn⟩
termination_by MAX_RETRIES - retryCount
decreasing_by
  obtain ⟨-, h2⟩ := h
  simp only [MAX_RETRIES] at h2 ⊢
  omega

/-- The exposed `send(recipientNpub = DEFAULT_RECEIVER, retryCount = 0)`
(useBitcoinWalletStore.js:774).  After the environment and store, its
parameters mirror the source signature: the recipient and the internal
retry counter. -/
def send (envs : Nat → SendEnv) (st : Store) (recipientNpub : String)
    (retryCount : Nat) : SendOut :=
  sendRec envs recipientNpub st retryCount

/-- The token delivered by the mint on deposit settlement. -/
structure DepositToken where
  proofs : List Proof
deriving DecidableEq

/-- Settlement outcome of a deposit: the "success" event with the minted
token, or the "error" event with a message. -/
inductive DepositOutcome
  | success (token : DepositToken)
  | failure (msg : String)
deriving DecidableEq

/-- Environment of one deposit: the Mint Client (used by the success
handler's balance verification), the result of `deposit.start()` (invoice
or thrown error), and the eventual settlement event, if any fired. -/
structure DepositEnv where
  mint : MintClient
  startResult : Except String String
  outcome : Option DepositOutcome

/-- Result of `initiateDeposit`: the returned invoice (null on error), the
final store, and the arguments passed to the `onSuccess` / `onError`
callbacks, when invoked. -/
structure DepositOut where
  invoiceOut : Option String
  st : Store
  successArg : Option Nat
  errorArg : Option String
deriving DecidableEq

/-- `initiateDeposit(amountInSats, { onSuccess, onError })`
(useBitcoinWalletStore.js:669-720).  The success handler stores
`token.proofs` into the wallet state, re-verifies the balance, clears the
invoice and invokes `onSuccess(newBalance)`; the error handler sets the
error, clears the invoice and invokes `onError`.  Note the handler never
compares the token amount with `amountInSats`. -/
def initiateDeposit (env : DepositEnv) (amountInSats : Nat) (st : Store) : DepositOut :=
  match st.cashuWallet with
  | Option.none =>
    ⟨Option.none, { st with errorMessage := some "Wallet not initialized" },
      Option.none, Option.none⟩
  | some w =>
    match env.startResult with
    | .error msg =>
      ⟨Option.none, { st with errorMessage := some msg }, Option.none, Option.none⟩
    | .ok pr =>
      let st1 := { st with invoice := pr }
      match env.outcome with
      | Option.none => ⟨some pr, st1, Option.none, Option.none⟩
      | some (.failure msg) =>
        ⟨some pr, { st1 with errorMessage := some msg, invoice := "" },
          Option.none, some msg⟩
      | some (.success token) =>
        let w2 := stateUpdate w token.proofs []
        let st2 := { st1 with cashuWallet := some w2 }
        let vb := verifyAndUpdateBalance env.mint st2
        ⟨some pr, { vb.2 with invoice := "" }, some vb.1, Option.none⟩

/-! ### Arithmetic helper lemmas about proof sums -/

lemma sumProofs_foldl : ∀ (ps : List Proof) (n : Nat),
    ps.foldl (fun s p => s + p.amount) n = n + sumProofs ps := by
  intro ps
  induction ps with
  | nil => intro n; simp [sumProofs]
  | cons p ps ih =>
    intro n
    simp only [sumProofs, List.foldl_cons, Nat.zero_add] at ih ⊢
    rw [ih (n + p.amount), ih p.amount]
    omega

lemma sumProofs_cons (p : Proof) (ps : List Proof) :
    sumProofs (p :: ps) = p.amount + sumProofs ps := by
  simp only [sumProofs, List.foldl_cons, Nat.zero_add]
  exact sumProofs_foldl ps p.amount

lemma sumProofs_append (a b : List Proof) :
    sumProofs (a ++ b) = sumProofs a + sumProofs b := by
  induction a with
  | nil => simp [sumProofs]
  | cons p ps ih =>
    rw [List.cons_append, sumProofs_cons, sumProofs_cons, ih]
    omega

lemma sumProofs_filterUnspent_le (ps : List Proof) (ss : List MintProofState) :
    sumProofs (filterUnspent ps ss) ≤ sumProofs ps := by
  induction ps generalizing ss with
  | nil => simp [filterUnspent]
  | cons p ps ih =>
    cases ss with
    | nil =>
      simp only [filterUnspent]
      exact Nat.zero_le _
    | cons s ss =>
      simp only [filterUnspent]
      split
      · rw [sumProofs_cons, sumProofs_cons]
        exact Nat.add_le_add_left (ih ss) _
      · calc sumProofs (filterUnspent ps ss) ≤ sumProofs ps := ih ss
          _ ≤ sumProofs (p :: ps) := by rw [sumProofs_cons]; omega

/-! ### Claim C3: balance reconciliation never exceeds the local sum -/

/-- C3: for every proof set held for the mint, `verifyBalanceWithMint`
returns at most the sum of the amounts of those proofs — on the success
path because it sums a state-filtered subset, and on the Mint Client
failure path because it falls back to the last-known local sum
(`extractBalance(wallet.balance)`, which by the external wallet interface
does not exceed the stored proofs' sum) instead of raising.  The second
conjunct pins down the failure path: a failing batch state check makes
reconciliation return exactly the fallback value. -/
theorem reconcile_le_sum :
    (∀ (mc : MintClient) (w : Wallet) (mintUrl : String),
      extractBalance w.balanceField ≤ sumProofs (getProofs w mintUrl) →
      verifyBalanceWithMint mc w mintUrl ≤ sumProofs (getProofs w mintUrl)) ∧
    (∀ (mc : MintClient) (w : Wallet) (mintUrl : String) (msg : String),
      mc.checkProofsStates (getProofs w mintUrl) = .error msg →
      getProofs w mintUrl ≠ [] →
      verifyBalanceWithMint mc w mintUrl = extractBalance w.balanceField) := by
  constructor
  · intro mc w mintUrl hbal
    unfold verifyBalanceWithMint
    dsimp only
    split
    · exact Nat.zero_le _
    · split
      · next states _ => exact sumProofs_filterUnspent_le _ _
      · exact hbal
  · intro mc w mintUrl msg herr hne
    unfold verifyBalanceWithMint
    have hlen : ¬ (getProofs w mintUrl).length = 0 := by
      simpa [List.length_eq_zero] using hne
    simp [hlen, herr]

def mcOffline : MintClient :=
  ⟨fun _ => .error "mint offline", fun _ _ _ => .error "mint offline"⟩

def proofTen : Proof := ⟨10, "secret-a", "02c", DEFAULT_MINT⟩

def walletTen : Wallet := ⟨[proofTen], BalVal.num 10⟩

theorem reconcile_le_sum_witness :
    verifyBalanceWithMint mcOffline walletTen DEFAULT_MINT ≤
      sumProofs (getProofs walletTen DEFAULT_MINT) :=
  reconcile_le_sum.1 mcOffline walletTen DEFAULT_MINT (by decide)

/-! ### Claim C10: balance update is a no-op without a wallet -/

/-- C10: when no wallet is initialized (`cashuWallet` is null),
`verifyAndUpdateBalance` returns 0 and leaves the store, including
`walletBalance`, unchanged. -/
theorem verifyAndUpdateBalance_no_wallet (mc : MintClient) (st : Store)
    (h : st.cashuWallet = Option.none) :
    verifyAndUpdateBalance mc st = (0, st) := by
  unfold verifyAndUpdateBalance
  rw [h]

def stNoWallet : Store := ⟨Option.none, 7, Option.none, "", true⟩

theorem verifyAndUpdateBalance_no_wallet_witness :
    verifyAndUpdateBalance mcOffline stNoWallet = (0, stNoWallet) :=
  verifyAndUpdateBalance_no_wallet mcOffline stNoWallet rfl

/-! ### Claim C8: payment-preference fallback -/

/-- C8: with a connection present and a decodable recipient npub, when the
relay lookup throws or finds no kind-10019 event, `fetchUserPaymentInfo`
returns the configured default mint as the accepted mint and the
recipient's hex-decoded identity key as the P2PK lock key, having issued
exactly one fetch whose filter is bounded to one most-recent event
(`limit 1`). -/
theorem payment_info_fallback (decodeKey : String → Option String)
    (fetchEvents : Filter → Except String (List NostrEvent))
    (npub hexNpub : String)
    (hdec : decodeKey npub = some hexNpub)
    (hmiss : fetchEvents ⟨[10019], [hexNpub], 1⟩ = .ok [] ∨
      ∃ msg, fetchEvents ⟨[10019], [hexNpub], 1⟩ = .error msg) :
    fetchUserPaymentInfo decodeKey fetchEvents true npub =
      (⟨[DEFAULT_MINT], some hexNpub, []⟩, [⟨[10019], [hexNpub], 1⟩]) := by
  unfold fetchUserPaymentInfo
  rcases hmiss with h | ⟨msg, h⟩ <;> simp [hdec, h]

def decodeFixed : String → Option String := fun _ => some "ab12"

def fetchNone : Filter → Except String (List NostrEvent) := fun _ => .ok []

theorem payment_info_fallback_witness :
    fetchUserPaymentInfo decodeFixed fetchNone true "npub1xyz" =
      (⟨[DEFAULT_MINT], some "ab12", []⟩, [⟨[10019], ["ab12"], 1⟩]) :=
  payment_info_fallback decodeFixed fetchNone "npub1xyz" "ab12" rfl (Or.inl rfl)

/-! ### Claim C4: insufficient local balance fails fast -/

/-- C4: a send invoked while the last-known local balance is below the
requested amount (the hardcoded 1 sat) returns false immediately, in a
single attempt, with an empty external-call trace — in particular zero
Mint Client calls — and leaves the store untouched. -/
theorem send_insufficient_balance_no_calls (envs : Nat → SendEnv) (npub : String)
    (st : Store) (r : Nat) (w : Wallet)
    (hw : st.cashuWallet = some w) (hbal : st.walletBalance < 1) :
    send envs st npub r = ⟨false, st, [], 1, Option.none, Option.none⟩ := by
  have ha : sendAttempt (envs r) npub st =
      ⟨.earlyFalse, st, [], Option.none, Option.none⟩ := by
    unfold sendAttempt
    rw [hw]
    simp [hbal]
  rw [send, sendRec]
  simp [ha]

def envOffline : SendEnv :=
  ⟨id, fun _ => Option.none, fun _ => .error "offline", mcOffline, fun _ => .error "offline"⟩

def stLowBal : Store := ⟨some ⟨[], BalVal.missing⟩, 0, Option.none, "", true⟩

theorem send_insufficient_balance_no_calls_witness :
    send (fun _ => envOffline) stLowBal "npub1abc" 0 =
      ⟨false, stLowBal, [], 1, Option.none, Option.none⟩ :=
  send_insufficient_balance_no_calls (fun _ => envOffline) "npub1abc" stLowBal 0
    ⟨[], BalVal.missing⟩ rfl (by decide)

/-! ### Characterization of a successful send attempt -/

lemma sendAttempt_succeeded_spec (e : SendEnv) (npub : String) (st : Store)
    (h : (sendAttempt e npub st).result = .succeeded) :
    ∃ w validProofs res states,
      (e.refresh st).cashuWallet = some w ∧
      e.mint.checkProofsStates (getProofs w DEFAULT_MINT) = .ok states ∧
      validProofs = filterUnspent (getProofs w DEFAULT_MINT) states ∧
      e.mint.split 1 validProofs
        (fetchUserPaymentInfo e.decodeKey e.fetchEvents
          (e.refresh st).ndkPresent npub).1.p2pkPubkey = .ok res ∧
      (sendAttempt e npub st).splitIn = some (validProofs, res) ∧
      (sendAttempt e npub st).nutzap =
        some ⟨9321, "Robots Building Education", res.send, 1, "sat", DEFAULT_MINT,
          e.decodeKey npub⟩ ∧
      (sendAttempt e npub st).st.cashuWallet =
        some (stateUpdate w res.keep (getProofs w DEFAULT_MINT)) := by
  cases hw0 : st.cashuWallet with
  | none => simp [sendAttempt, hw0] at h
  | some w0 =>
    by_cases hbal : st.walletBalance < 1
    · simp [sendAttempt, hw0, hbal] at h
    · cases hwR : (e.refresh st).cashuWallet with
      | none => simp [sendAttempt, hw0, hbal, hwR] at h
      | some w =>
        by_cases hpe : getProofs w DEFAULT_MINT = []
        · simp [sendAttempt, hw0, hbal, hwR, hpe] at h
        · cases hcs : e.mint.checkProofsStates (getProofs w DEFAULT_MINT) with
          | error msg => simp [sendAttempt, hw0, hbal, hwR, hpe, hcs] at h
          | ok states =>
            by_cases hv : filterUnspent (getProofs w DEFAULT_MINT) states = []
            · simp [sendAttempt, hw0, hbal, hwR, hpe, hcs, hv] at h
            · by_cases hvb : sumProofs (filterUnspent (getProofs w DEFAULT_MINT) states) < 1
              · simp [sendAttempt, hw0, hbal, hwR, hpe, hcs, hv, hvb] at h
              · cases hsp : e.mint.split 1 (filterUnspent (getProofs w DEFAULT_MINT) states)
                    (fetchUserPaymentInfo e.decodeKey e.fetchEvents
                      (e.refresh st).ndkPresent npub).1.p2pkPubkey with
                | error msg =>
                  simp [sendAttempt, hw0, hbal, hwR, hpe, hcs, hv, hvb, hsp] at h
                | ok res =>
                  cases hpub : e.publish
                      ⟨9321, "Robots Building Education", res.send, 1, "sat", DEFAULT_MINT,
                        e.decodeKey npub⟩ with
                  | error msg =>
                    simp [sendAttempt, hw0, hbal, hwR, hpe, hcs, hv, hvb, hsp, hpub] at h
                  | ok u =>
                    refine ⟨w, filterUnspent (getProofs w DEFAULT_MINT) states, res, states,
                      ?_, ?_, rfl, ?_, ?_, ?_, ?_⟩ <;>
                      simp [sendAttempt, verifyAndUpdateBalance, hw0, hbal, hwR, hpe, hcs,
                        hv, hvb, hsp, hpub]

/-! ### Characterization of a thrown attempt before the split succeeded -/

lemma sendAttempt_thrown_nosplit (e : SendEnv) (npub : String) (st : Store) (msg : String)
    (h : (sendAttempt e npub st).result = .thrown msg)
    (hsi : (sendAttempt e npub st).splitIn = Option.none) :
    (sendAttempt e npub st).st = e.refresh st := by
  cases hw0 : st.cashuWallet with
  | none => simp [sendAttempt, hw0] at h
  | some w0 =>
    by_cases hbal : st.walletBalance < 1
    · simp [sendAttempt, hw0, hbal] at h
    · cases hwR : (e.refresh st).cashuWallet with
      | none => simp [sendAttempt, hw0, hbal, hwR] at h
      | some w =>
        by_cases hpe : getProofs w DEFAULT_MINT = []
        · simp [sendAttempt, hw0, hbal, hwR, hpe]
        · cases hcs : e.mint.checkProofsStates (getProofs w DEFAULT_MINT) with
          | error m => simp [sendAttempt, hw0, hbal, hwR, hpe, hcs]
          | ok states =>
            by_cases hv : filterUnspent (getProofs w DEFAULT_MINT) states = []
            · simp [sendAttempt, hw0, hbal, hwR, hpe, hcs, hv]
            · by_cases hvb : sumProofs (filterUnspent (getProofs w DEFAULT_MINT) states) < 1
              · simp [sendAttempt, hw0, hbal, hwR, hpe, hcs, hv, hvb]
              · cases hsp : e.mint.split 1 (filterUnspent (getProofs w DEFAULT_MINT) states)
                    (fetchUserPaymentInfo e.decodeKey e.fetchEvents
                      (e.refresh st).ndkPresent npub).1.p2pkPubkey with
                | error m =>
                  simp [sendAttempt, hw0, hbal, hwR, hpe, hcs, hv, hvb, hsp]
                | ok res =>
                  cases hpub : e.publish
                      ⟨9321, "Robots Building Education", res.send, 1, "sat", DEFAULT_MINT,
                        e.decodeKey npub⟩ with
                  | error m =>
                    simp [sendAttempt, hw0, hbal, hwR, hpe, hcs, hv, hvb, hsp, hpub] at hsi
                  | ok u =>
                    simp [sendAttempt, hw0, hbal, hwR, hpe, hcs, hv, hvb, hsp, hpub] at h

/-! ### Unfolding lemmas for the retry loop -/

lemma sendRec_earlyFalse (envs : Nat → SendEnv) (npub : String) (st : Store) (r : Nat)
    (h : (sendAttempt (envs r) npub st).result = .earlyFalse) :
    sendRec envs npub st r =
      ⟨false, (sendAttempt (envs r) npub st).st, (sendAttempt (envs r) npub st).calls, 1,
        (sendAttempt (envs r) npub st).nutzap, (sendAttempt (envs r) npub st).splitIn⟩ := by
  rw [sendRec]
  simp only [h]

lemma sendRec_succeeded (envs : Nat → SendEnv) (npub : String) (st : Store) (r : Nat)
    (h : (sendAttempt (envs r) npub st).result = .succeeded) :
    sendRec envs npub st r =
      ⟨true, (sendAttempt (envs r) npub st).st, (sendAttempt (envs r) npub st).calls, 1,
        (sendAttempt (envs r) npub st).nutzap, (sendAttempt (envs r) npub st).splitIn⟩ := by
  rw [sendRec]
  simp only [h]

lemma sendRec_thrown_retry (envs : Nat → SendEnv) (npub : String) (st : Store) (r : Nat)
    (msg : String)
    (h : (sendAttempt (envs r) npub st).result = .thrown msg)
    (hstale : isSpentErrorMsg msg = true) (hr : r < MAX_RETRIES) :
    sendRec envs npub st r =
      ⟨(sendRec envs npub (sendAttempt (envs r) npub st).st (r + 1)).ok,
        (sendRec envs npub (sendAttempt (envs r) npub st).st (r + 1)).st,
        (sendAttempt (envs r) npub st).calls ++
          Call.sleep 500 :: (sendRec envs npub (sendAttempt (envs r) npub st).st (r + 1)).calls,
        (sendRec envs npub (sendAttempt (envs r) npub st).st (r + 1)).attempts + 1,
        (sendRec envs npub (sendAttempt (envs r) npub st).st (r + 1)).nutzap,
        (sendRec envs npub (sendAttempt (envs r) npub st).st (r + 1)).splitIn⟩ := by
  rw [sendRec]
  simp only [h]
  rw [dif_pos ⟨hstale, hr⟩]

lemma sendRec_thrown_final (envs : Nat → SendEnv) (npub : String) (st : Store) (r : Nat)
    (msg : String)
    (h : (sendAttempt (envs r) npub st).result = .thrown msg)
    (hnr : ¬ (isSpentErrorMsg msg = true ∧ r < MAX_RETRIES)) :
    sendRec envs npub st r =
      ⟨false,
        (verifyAndUpdateBalance (envs r).mint
          { (sendAttempt (envs r) npub st).st with errorMessage := some msg }).2,
        (sendAttempt (envs r) npub st).calls ++ [Call.balanceVerify], 1,
        (sendAttempt (envs r) npub st).nutzap, (sendAttempt (envs r) npub st).splitIn⟩ := by
  rw [sendRec]
  simp only [h]
  rw [dif_neg hnr]

/-! ### Substring and classification lemmas -/

lemma startsWithChars_append (pat l t : List Char)
    (h : startsWithChars pat l = true) :
    startsWithChars pat (l ++ t) = true := by
  induction pat generalizing l with
  | nil => simp [startsWithChars]
  | cons a as ih =>
    cases l with
    | nil => simp [startsWithChars] at h
    | cons b bs =>
      simp only [startsWithChars, List.cons_append, Bool.and_eq_true] at h ⊢
      exact ⟨h.1, ih bs h.2⟩

lemma hasSubChars_of_starts (pat l : List Char)
    (h : startsWithChars pat l = true) :
    hasSubChars pat l = true := by
  cases l with
  | nil =>
    cases pat with
    | nil => rfl
    | cons a as => simp [startsWithChars] at h
  | cons b bs => simp [hasSubChars, h]

lemma includesSub_append_of_starts (pre s pat : String)
    (h : startsWithChars pat.data (lowerStr pre).data = true) :
    includesSub (lowerStr (pre ++ s)) pat = true := by
  have hdata : (lowerStr (pre ++ s)).data = (lowerStr pre).data ++ (lowerStr s).data := by
    simp [lowerStr, String.data_append]
  unfold includesSub
  rw [hdata]
  exact hasSubChars_of_starts _ _ (startsWithChars_append _ _ _ h)

lemma isSpentErrorMsg_insufficient (s : String) :
    isSpentErrorMsg ("Insufficient valid balance: " ++ s) = true := by
  unfold isSpentErrorMsg
  have h3 : includesSub (lowerStr ("Insufficient valid balance: " ++ s))
      "insufficient valid" = true :=
    includesSub_append_of_starts _ _ _ (by decide)
  rw [h3]
  simp

/-! ### Trace helper lemmas -/

def isSleepCall : Call → Bool
  | .sleep _ => true
  | _ => false

def isRefreshCall : Call → Bool
  | .refresh => true
  | _ => false

lemma filter_sleep_map_relayFetch (l : List Filter) :
    (l.map Call.relayFetch).filter isSleepCall = [] := by
  induction l with
  | nil => rfl
  | cons a as ih => simp [isSleepCall, ih]

lemma countP_refresh_map_relayFetch (l : List Filter) :
    (l.map Call.relayFetch).countP isRefreshCall = 0 := by
  induction l with
  | nil => rfl
  | cons a as ih => simp [isRefreshCall, ih, List.countP_cons]

lemma sendAttempt_thrown_trace (e : SendEnv) (npub : String) (st : Store) (msg : String)
    (h : (sendAttempt e npub st).result = .thrown msg) :
    (sendAttempt e npub st).calls.filter isSleepCall = [] ∧
    (sendAttempt e npub st).calls.countP isRefreshCall = 1 := by
  cases hw0 : st.cashuWallet with
  | none => simp [sendAttempt, hw0] at h
  | some w0 =>
    by_cases hbal : st.walletBalance < 1
    · simp [sendAttempt, hw0, hbal] at h
    · cases hwR : (e.refresh st).cashuWallet with
      | none => simp [sendAttempt, hw0, hbal, hwR] at h
      | some w =>
        by_cases hpe : getProofs w DEFAULT_MINT = []
        · simp [sendAttempt, hw0, hbal, hwR, hpe, isSleepCall, isRefreshCall,
            filter_sleep_map_relayFetch, countP_refresh_map_relayFetch,
            List.countP_cons, List.countP_append, List.filter_append]
        · cases hcs : e.mint.checkProofsStates (getProofs w DEFAULT_MINT) with
          | error m =>
            simp [sendAttempt, hw0, hbal, hwR, hpe, hcs, isSleepCall, isRefreshCall,
              filter_sleep_map_relayFetch, countP_refresh_map_relayFetch,
              List.countP_cons, List.countP_append, List.filter_append]
          | ok states =>
            by_cases hv : filterUnspent (getProofs w DEFAULT_MINT) states = []
            · simp [sendAttempt, hw0, hbal, hwR, hpe, hcs, hv, isSleepCall, isRefreshCall,
                filter_sleep_map_relayFetch, countP_refresh_map_relayFetch,
                List.countP_cons, List.countP_append, List.filter_append]
            · by_cases hvb : sumProofs (filterUnspent (getProofs w DEFAULT_MINT) states) < 1
              · simp [sendAttempt, hw0, hbal, hwR, hpe, hcs, hv, hvb, isSleepCall,
                  isRefreshCall, filter_sleep_map_relayFetch, countP_refresh_map_relayFetch,
                  List.countP_cons, List.countP_append, List.filter_append]
              · cases hsp : e.mint.split 1 (filterUnspent (getProofs w DEFAULT_MINT) states)
                    (fetchUserPaymentInfo e.decodeKey e.fetchEvents
                      (e.refresh st).ndkPresent npub).1.p2pkPubkey with
                | error m =>
                  simp [sendAttempt, hw0, hbal, hwR, hpe, hcs, hv, hvb, hsp, isSleepCall,
                    isRefreshCall, filter_sleep_map_relayFetch, countP_refresh_map_relayFetch,
                    List.countP_cons, List.countP_append, List.filter_append]
                | ok res =>
                  cases hpub : e.publish
                      ⟨9321, "Robots Building Education", res.send, 1, "sat", DEFAULT_MINT,
                        e.decodeKey npub⟩ with
                  | error m =>
                    simp [sendAttempt, hw0, hbal, hwR, hpe, hcs, hv, hvb, hsp, hpub,
                      isSleepCall, isRefreshCall, filter_sleep_map_relayFetch,
                      countP_refresh_map_relayFetch, List.countP_cons, List.countP_append,
                      List.filter_append]
                  | ok u =>
                    simp [sendAttempt, hw0, hbal, hwR, hpe, hcs, hv, hvb, hsp, hpub] at h

lemma verifyAndUpdateBalance_fields (mc : MintClient) (st : Store) :
    (verifyAndUpdateBalance mc st).2.errorMessage = st.errorMessage ∧
    (verifyAndUpdateBalance mc st).2.cashuWallet = st.cashuWallet := by
  unfold verifyAndUpdateBalance
  cases hw : st.cashuWallet <;> simp [hw]

/-! ### Loop-level invariant of a successful send -/

lemma sendRec_success_inv (envs : Nat → SendEnv) (npub : String) :
    ∀ (k r : Nat) (st : Store), MAX_RETRIES - r ≤ k →
    (sendRec envs npub st r).ok = true →
    ∃ i validProofs res pk,
      (envs i).mint.split 1 validProofs pk = .ok res ∧
      (sendRec envs npub st r).splitIn = some (validProofs, res) ∧
      ∃ ev, (sendRec envs npub st r).nutzap = some ev ∧
        ev.sendProofs = res.send ∧ ev.amount = 1 := by
  intro k
  induction k with
  | zero =>
    intro r st hk hok
    cases hres : (sendAttempt (envs r) npub st).result with
    | earlyFalse => rw [sendRec_earlyFalse envs npub st r hres] at hok; simp at hok
    | succeeded =>
      obtain ⟨w, valid, res, states, hwR, hcs, hveq, hsp, hsi, hnz, hst⟩ :=
        sendAttempt_succeeded_spec (envs r) npub st hres
      rw [sendRec_succeeded envs npub st r hres]
      exact ⟨r, valid, res, _, hsp, hsi, ⟨_, hnz, rfl, rfl⟩⟩
    | thrown msg =>
      have hnr : ¬ (isSpentErrorMsg msg = true ∧ r < MAX_RETRIES) := by
        rintro ⟨_, h2⟩
        omega
      rw [sendRec_thrown_final envs npub st r msg hres hnr] at hok
      simp at hok
  | succ k ih =>
    intro r st hk hok
    cases hres : (sendAttempt (envs r) npub st).result with
    | earlyFalse => rw [sendRec_earlyFalse envs npub st r hres] at hok; simp at hok
    | succeeded =>
      obtain ⟨w, valid, res, states, hwR, hcs, hveq, hsp, hsi, hnz, hst⟩ :=
        sendAttempt_succeeded_spec (envs r) npub st hres
      rw [sendRec_succeeded envs npub st r hres]
      exact ⟨r, valid, res, _, hsp, hsi, ⟨_, hnz, rfl, rfl⟩⟩
    | thrown msg =>
      by_cases hcase : isSpentErrorMsg msg = true ∧ r < MAX_RETRIES
      · rw [sendRec_thrown_retry envs npub st r msg hres hcase.1 hcase.2] at hok ⊢
        simp only at hok ⊢
        exact ih (r + 1) (sendAttempt (envs r) npub st).st (by omega) hok
      · rw [sendRec_thrown_final envs npub st r msg hres hcase] at hok
        simp at hok

/-! ### Concrete environments used by witnesses and counterexamples -/

/-- A mint whose split behaves per the Mint Client interface: it consumes
the inputs and issues a conserving keep/send pair, failing when the inputs
cannot cover the requested amount. -/
def mcConserving : MintClient :=
  ⟨fun ps => .ok (ps.map (fun _ => .UNSPENT)),
   fun a inputs _ =>
     if a ≤ sumProofs inputs then
       .ok ⟨[⟨sumProofs inputs - a, "keep-secret", "c1", DEFAULT_MINT⟩],
            [⟨a, "send-secret", "c2", DEFAULT_MINT⟩]⟩
     else .error "insufficient inputs"⟩

lemma mcConserving_conserves (a : Nat) (inputs : List Proof) (pk : Option String)
    (res : SplitResult) (h : mcConserving.split a inputs pk = .ok res) :
    sumProofs res.keep + a = sumProofs inputs := by
  unfold mcConserving at h
  dsimp only at h
  split at h
  · next hle =>
    cases h
    simp only [sumProofs_cons]
    have hz : sumProofs ([] : List Proof) = 0 := rfl
    simp only [hz]
    omega
  · cases h

lemma mcConserving_sends (a : Nat) (inputs : List Proof) (pk : Option String)
    (res : SplitResult) (h : mcConserving.split a inputs pk = .ok res) :
    sumProofs res.send = a := by
  unfold mcConserving at h
  dsimp only at h
  split at h
  · cases h
    simp [sumProofs_cons]
    rfl
  · cases h

def envGood : SendEnv :=
  ⟨id, fun _ => some "abcd", fun _ => .ok [], mcConserving, fun _ => .ok ()⟩

def stTen : Store := ⟨some walletTen, 10, Option.none, "", true⟩

def mcStale : MintClient :=
  ⟨fun _ => .error "Token already spent", fun _ _ _ => .error "Token already spent"⟩

def envStale : SendEnv :=
  ⟨id, fun _ => some "abcd", fun _ => .ok [], mcStale, fun _ => .ok ()⟩

def mcRateLimited : MintClient :=
  ⟨fun _ => .error "Rate limit exceeded", fun _ _ _ => .error "Rate limit exceeded"⟩

def envBadCheck : SendEnv :=
  ⟨id, fun _ => some "abcd", fun _ => .ok [], mcRateLimited, fun _ => .ok ()⟩

/-! ### Claim C1: conservation of a successful split -/

/-- C1: for every successful send, the recorded split satisfies
`amount(keep) + 1 = sum(valid input proofs)` whenever the Mint Client's
split conserves value as its interface specifies (the requested amount is
the hardcoded 1 sat); and any error the mint reports during an attempt
whose message is not in the stale class — in particular an integrity
violation — terminates the send at once: one attempt, returns false, the
message surfaced as the error, never retried. -/
theorem send_split_conservation :
    (∀ (envs : Nat → SendEnv) (npub : String) (st : Store) (r : Nat),
      (∀ i a inputs pk res, (envs i).mint.split a inputs pk = .ok res →
        sumProofs res.keep + a = sumProofs inputs) →
      ∀ validProofs res, (sendRec envs npub st r).ok = true →
      (sendRec envs npub st r).splitIn = some (validProofs, res) →
      sumProofs res.keep + 1 = sumProofs validProofs) ∧
    (∀ (envs : Nat → SendEnv) (npub : String) (st : Store) (r : Nat) (msg : String),
      (sendAttempt (envs r) npub st).result = .thrown msg →
      isSpentErrorMsg msg = false →
      (sendRec envs npub st r).ok = false ∧ (sendRec envs npub st r).attempts = 1 ∧
      (sendRec envs npub st r).st.errorMessage = some msg) := by
  constructor
  · intro envs npub st r hcons validProofs res hok hsi
    obtain ⟨i, valid, res0, pk, hsp, hsi0, ev, hnz, hevp, hevam⟩ :=
      sendRec_success_inv envs npub MAX_RETRIES r st (by omega) hok
    have hpair : (valid, res0) = (validProofs, res) := Option.some.inj (hsi0.symm.trans hsi)
    cases hpair
    exact hcons i 1 validProofs pk res hsp
  · intro envs npub st r msg h hfalse
    have hnr : ¬ (isSpentErrorMsg msg = true ∧ r < MAX_RETRIES) := by
      rintro ⟨h1, -⟩
      rw [hfalse] at h1
      exact Bool.false_ne_true h1
    rw [sendRec_thrown_final envs npub st r msg h hnr]
    refine ⟨rfl, rfl, ?_⟩
    have := (verifyAndUpdateBalance_fields (envs r).mint
      { (sendAttempt (envs r) npub st).st with errorMessage := some msg }).1
    simpa using this

theorem send_split_conservation_witness :
    sumProofs (SplitResult.mk [⟨9, "keep-secret", "c1", DEFAULT_MINT⟩]
      [⟨1, "send-secret", "c2", DEFAULT_MINT⟩]).keep + 1 = sumProofs [proofTen] :=
  send_split_conservation.1 (fun _ => envGood) "npub1w" stTen 0
    (fun _ a inputs pk res h => mcConserving_conserves a inputs pk res h)
    [proofTen]
    (SplitResult.mk [⟨9, "keep-secret", "c1", DEFAULT_MINT⟩]
      [⟨1, "send-secret", "c2", DEFAULT_MINT⟩])
    (by rw [sendRec_succeeded (fun _ => envGood) "npub1w" stTen 0 (by decide)])
    (by rw [sendRec_succeeded (fun _ => envGood) "npub1w" stTen 0 (by decide)]; decide)

/-! ### Claim C2: the second parameter of send and the transferred amount -/

/-- Amount carried by the nutzap of a send result, 0 when none was
published. -/
def sumNutzap (o : SendOut) : Nat :=
  match o.nutzap with
  | some ev => sumProofs ev.sendProofs
  | Option.none => 0

/-- C2 is false as stated: the second parameter of the exposed
`send(recipientNpub, retryCount)` is the internal retry counter, not a
requested amount.  Calling send with 5 as its second argument succeeds and
transfers proofs totalling 1 (the hardcoded amount), not 5. -/
theorem send_amount_param_counterexample :
    (send (fun _ => envGood) stTen "npub1w" 5).ok = true ∧
    sumNutzap (send (fun _ => envGood) stTen "npub1w" 5) = 1 ∧
    ¬ sumNutzap (send (fun _ => envGood) stTen "npub1w" 5) = 5 := by
  rw [send, sendRec_succeeded (fun _ => envGood) "npub1w" stTen 5 (by decide)]
  refine ⟨rfl, by decide, by decide⟩

/-- C2 (amended): the exposed send operation's second parameter is an
internal retry counter; the requested amount is hardcoded to 1 sat, and —
whenever the Mint Client's split issues a send group totalling the
requested amount, as its interface specifies — every successful send
publishes a nutzap carrying an amount tag of 1 and locked proofs totalling
exactly 1. -/
theorem send_fixed_one_sat (envs : Nat → SendEnv) (npub : String) (st : Store) (r : Nat)
    (hmint : ∀ i a inputs pk res, (envs i).mint.split a inputs pk = .ok res →
      sumProofs res.send = a)
    (hok : (sendRec envs npub st r).ok = true) :
    ∃ ev, (sendRec envs npub st r).nutzap = some ev ∧ ev.amount = 1 ∧
      sumProofs ev.sendProofs = 1 := by
  obtain ⟨i, valid, res, pk, hsp, hsi, ev, hnz, hevp, hevam⟩ :=
    sendRec_success_inv envs npub MAX_RETRIES r st (by omega) hok
  refine ⟨ev, hnz, hevam, ?_⟩
  rw [hevp]
  exact hmint i 1 valid pk res hsp

theorem send_fixed_one_sat_witness :
    ∃ ev, (sendRec (fun _ => envGood) "npub1w" stTen 0).nutzap = some ev ∧
      ev.amount = 1 ∧ sumProofs ev.sendProofs = 1 :=
  send_fixed_one_sat (fun _ => envGood) "npub1w" stTen 0
    (fun _ a inputs pk res h => mcConserving_sends a inputs pk res h)
    (by rw [sendRec_succeeded (fun _ => envGood) "npub1w" stTen 0 (by decide)])

/-! ### Claim C6: three attempts with fixed 500ms backoff -/

/-- Store passed to the r-th attempt of a send chain started at `st0`. -/
def storeBefore (envs : Nat → SendEnv) (npub : String) (st0 : Store) : Nat → Store
  | 0 => st0
  | r + 1 => (sendAttempt (envs r) npub (storeBefore envs npub st0 r)).st

/-- Whether an attempt outcome is a thrown stale-class error. -/
def staleThrownB (a : AttemptOut) : Bool :=
  match a.result with
  | .thrown msg => isSpentErrorMsg msg
  | _ => false

/-- C6: a send whose every attempt throws a stale-class error terminates
as failed (returns false) after exactly `MAX_RETRIES + 1 = 3` full
attempts — each one restarting from the beginning, witnessed by the three
wallet refreshes in the trace — with exactly two fixed 500ms sleeps
between consecutive attempts. -/
theorem send_stale_three_attempts (envs : Nat → SendEnv) (npub : String) (st0 : Store)
    (h : ∀ r, r < 3 →
      staleThrownB (sendAttempt (envs r) npub (storeBefore envs npub st0 r)) = true) :
    (sendRec envs npub st0 0).ok = false ∧
    (sendRec envs npub st0 0).attempts = 3 ∧
    (sendRec envs npub st0 0).calls.filter isSleepCall =
      [Call.sleep 500, Call.sleep 500] ∧
    (sendRec envs npub st0 0).calls.countP isRefreshCall = 3 := by
  have extract : ∀ r, r < 3 → ∃ msg,
      (sendAttempt (envs r) npub (storeBefore envs npub st0 r)).result = .thrown msg ∧
      isSpentErrorMsg msg = true := by
    intro r hr
    have hb := h r hr
    unfold staleThrownB at hb
    cases hres : (sendAttempt (envs r) npub (storeBefore envs npub st0 r)).result with
    | earlyFalse => rw [hres] at hb; exact absurd hb (by simp)
    | succeeded => rw [hres] at hb; exact absurd hb (by simp)
    | thrown msg => rw [hres] at hb; exact ⟨msg, rfl, hb⟩
  obtain ⟨m0, h0, s0⟩ := extract 0 (by omega)
  obtain ⟨m1, h1, s1⟩ := extract 1 (by omega)
  obtain ⟨m2, h2, s2⟩ := extract 2 (by omega)
  rw [show storeBefore envs npub st0 0 = st0 from rfl] at h0
  rw [show storeBefore envs npub st0 1 = (sendAttempt (envs 0) npub st0).st from rfl] at h1
  rw [show storeBefore envs npub st0 2 =
    (sendAttempt (envs 1) npub (sendAttempt (envs 0) npub st0).st).st from rfl] at h2
  have tr0 := sendAttempt_thrown_trace (envs 0) npub st0 m0 h0
  have tr1 := sendAttempt_thrown_trace (envs 1) npub (sendAttempt (envs 0) npub st0).st m1 h1
  have tr2 := sendAttempt_thrown_trace (envs 2) npub
    (sendAttempt (envs 1) npub (sendAttempt (envs 0) npub st0).st).st m2 h2
  have e0 := sendRec_thrown_retry envs npub st0 0 m0 h0 s0 (by simp [MAX_RETRIES])
  have e1 := sendRec_thrown_retry envs npub (sendAttempt (envs 0) npub st0).st 1 m1 h1 s1
    (by simp [MAX_RETRIES])
  have e2 := sendRec_thrown_final envs npub
    (sendAttempt (envs 1) npub (sendAttempt (envs 0) npub st0).st).st 2 m2 h2
    (by simp [MAX_RETRIES])
  rw [e0, e1, e2]
  refine ⟨rfl, rfl, ?_, ?_⟩ <;>
    simp [List.filter_append, List.countP_append, List.countP_cons, isSleepCall,
      isRefreshCall, tr0.1, tr0.2, tr1.1, tr1.2, tr2.1, tr2.2]

theorem send_stale_three_attempts_witness :
    (sendRec (fun _ => envStale) "npub1w" stTen 0).ok = false ∧
    (sendRec (fun _ => envStale) "npub1w" stTen 0).attempts = 3 ∧
    (sendRec (fun _ => envStale) "npub1w" stTen 0).calls.filter isSleepCall =
      [Call.sleep 500, Call.sleep 500] ∧
    (sendRec (fun _ => envStale) "npub1w" stTen 0).calls.countP isRefreshCall = 3 :=
  send_stale_three_attempts (fun _ => envStale) "npub1w" stTen (by decide)

/-! ### Claim C7: local state update after a successful split -/

lemma stateUpdate_mem_spec (w : Wallet) (keepPs destroyPs : List Proof)
    (hfresh : ∀ k ∈ keepPs, ∀ q ∈ destroyPs, k.secret ≠ q.secret) :
    (∀ p ∈ destroyPs, p ∉ (stateUpdate w keepPs destroyPs).proofs) ∧
    (∀ k ∈ keepPs, k ∈ (stateUpdate w keepPs destroyPs).proofs) := by
  constructor
  · intro p hp hmem
    unfold stateUpdate at hmem
    simp only [List.mem_append] at hmem
    rcases hmem with hmem | hmem
    · rw [List.mem_filter] at hmem
      have hfalse : (destroyPs.any fun d => d.secret == p.secret) = false := by
        simpa using hmem.2
      have hnone : ¬ ∃ d ∈ destroyPs, d.secret == p.secret := by
        simpa [List.any_eq_true] using hfalse
      exact hnone ⟨p, hp, by simp⟩
    · exact hfresh p hmem p hp rfl
  · intro k hk
    unfold stateUpdate
    simp [List.mem_append, hk]

/-- C7: after a successful split during send, the local state update
removes every proof of the pre-verification fetched set (the full
`getProofs` result, valid and invalid alike) from the wallet state and
inserts exactly the keep proofs (whose secrets are fresh, per the mint
interface); and the update is applied only after the split succeeds: an
attempt that throws without a recorded successful split leaves the
post-refresh store untouched. -/
theorem send_state_update_spec :
    (∀ (e : SendEnv) (npub : String) (st : Store),
      (sendAttempt e npub st).result = .succeeded →
      ∃ w validProofs res,
        (e.refresh st).cashuWallet = some w ∧
        (sendAttempt e npub st).splitIn = some (validProofs, res) ∧
        (sendAttempt e npub st).st.cashuWallet =
          some (stateUpdate w res.keep (getProofs w DEFAULT_MINT)) ∧
        ((∀ k ∈ res.keep, ∀ q ∈ getProofs w DEFAULT_MINT, k.secret ≠ q.secret) →
          (∀ p ∈ getProofs w DEFAULT_MINT,
            p ∉ (stateUpdate w res.keep (getProofs w DEFAULT_MINT)).proofs) ∧
          ∀ k ∈ res.keep, k ∈ (stateUpdate w res.keep (getProofs w DEFAULT_MINT)).proofs)) ∧
    (∀ (e : SendEnv) (npub : String) (st : Store) (msg : String),
      (sendAttempt e npub st).result = .thrown msg →
      (sendAttempt e npub st).splitIn = Option.none →
      (sendAttempt e npub st).st = e.refresh st) := by
  constructor
  · intro e npub st h
    obtain ⟨w, valid, res, states, hwR, hcs, hveq, hsp, hsi, hnz, hst⟩ :=
      sendAttempt_succeeded_spec e npub st h
    exact ⟨w, valid, res, hwR, hsi, hst,
      fun hfresh => stateUpdate_mem_spec w res.keep _ hfresh⟩
  · intro e npub st msg h hsi
    exact sendAttempt_thrown_nosplit e npub st msg h hsi

theorem send_state_update_spec_witness :
    ∃ w validProofs res,
      (envGood.refresh stTen).cashuWallet = some w ∧
      (sendAttempt envGood "npub1w" stTen).splitIn = some (validProofs, res) ∧
      (sendAttempt envGood "npub1w" stTen).st.cashuWallet =
        some (stateUpdate w res.keep (getProofs w DEFAULT_MINT)) ∧
      ((∀ k ∈ res.keep, ∀ q ∈ getProofs w DEFAULT_MINT, k.secret ≠ q.secret) →
        (∀ p ∈ getProofs w DEFAULT_MINT,
          p ∉ (stateUpdate w res.keep (getProofs w DEFAULT_MINT)).proofs) ∧
        ∀ k ∈ res.keep, k ∈ (stateUpdate w res.keep (getProofs w DEFAULT_MINT)).proofs) :=
  send_state_update_spec.1 envGood "npub1w" stTen (by decide)

/-! ### Claim C9: stale-class classification and retry behavior -/

/-- C9: the post-verification "no valid proofs" and "insufficient valid
balance" failures are classified as retryable staleness by substring
matching on the lowercased message ("already spent" / "no valid proofs" /
"insufficient valid"); a thrown stale-class message below the retry cap
leads to a further attempt whose outcome decides the send, while any
thrown message outside the class fails the send immediately: one attempt,
false, the message stored as the error. -/
theorem send_retry_classification :
    (∀ s, isSpentErrorMsg ("Insufficient valid balance: " ++ s) = true) ∧
    (isSpentErrorMsg "No valid proofs available" = true) ∧
    (∀ (e : SendEnv) (npub : String) (st : Store) (w0 w : Wallet)
      (states : List MintProofState),
      st.cashuWallet = some w0 → ¬ st.walletBalance < 1 →
      (e.refresh st).cashuWallet = some w →
      ¬ getProofs w DEFAULT_MINT = [] →
      e.mint.checkProofsStates (getProofs w DEFAULT_MINT) = .ok states →
      filterUnspent (getProofs w DEFAULT_MINT) states = [] →
      (sendAttempt e npub st).result = .thrown "No valid proofs available") ∧
    (∀ (envs : Nat → SendEnv) (npub : String) (st : Store) (r : Nat) (msg : String),
      (sendAttempt (envs r) npub st).result = .thrown msg →
      isSpentErrorMsg msg = true → r < MAX_RETRIES →
      (sendRec envs npub st r).attempts =
        (sendRec envs npub (sendAttempt (envs r) npub st).st (r + 1)).attempts + 1 ∧
      (sendRec envs npub st r).ok =
        (sendRec envs npub (sendAttempt (envs r) npub st).st (r + 1)).ok) ∧
    (∀ (envs : Nat → SendEnv) (npub : String) (st : Store) (r : Nat) (msg : String),
      (sendAttempt (envs r) npub st).result = .thrown msg →
      isSpentErrorMsg msg = false →
      (sendRec envs npub st r).ok = false ∧ (sendRec envs npub st r).attempts = 1 ∧
      (sendRec envs npub st r).st.errorMessage = some msg) := by
  refine ⟨isSpentErrorMsg_insufficient, by decide, ?_, ?_, ?_⟩
  · intro e npub st w0 w states hw0 hbal hwR hpe hcs hv
    simp [sendAttempt, hw0, hbal, hwR, hpe, hcs, hv]
  · intro envs npub st r msg h hstale hr
    rw [sendRec_thrown_retry envs npub st r msg h hstale hr]
    exact ⟨rfl, rfl⟩
  · intro envs npub st r msg h hfalse
    have hnr : ¬ (isSpentErrorMsg msg = true ∧ r < MAX_RETRIES) := by
      rintro ⟨h1, -⟩
      rw [hfalse] at h1
      exact Bool.false_ne_true h1
    rw [sendRec_thrown_final envs npub st r msg h hnr]
    refine ⟨rfl, rfl, ?_⟩
    have := (verifyAndUpdateBalance_fields (envs r).mint
      { (sendAttempt (envs r) npub st).st with errorMessage := some msg }).1
    simpa using this

theorem send_retry_classification_witness :
    isSpentErrorMsg ("Insufficient valid balance: " ++ "7") = true ∧
    ((sendRec (fun _ => envBadCheck) "npub1w" stTen 0).ok = false ∧
      (sendRec (fun _ => envBadCheck) "npub1w" stTen 0).attempts = 1 ∧
      (sendRec (fun _ => envBadCheck) "npub1w" stTen 0).st.errorMessage =
        some "Rate limit exceeded") :=
  ⟨send_retry_classification.1 "7",
    send_retry_classification.2.2.2.2 (fun _ => envBadCheck) "npub1w" stTen 0
      "Rate limit exceeded" (by decide) (by decide)⟩

/-! ### Claim C5: deposit settlement and the amount invariant -/

/-- Sum of the proof amounts held in the stored wallet, 0 without a
wallet. -/
def storeProofSum (st : Store) : Nat :=
  match st.cashuWallet with
  | some w => sumProofs w.proofs
  | Option.none => 0

def envDepositSeven : DepositEnv :=
  ⟨mcConserving, .ok "lnbc-test-invoice",
    some (.success ⟨[⟨7, "dep-secret", "c7", DEFAULT_MINT⟩]⟩)⟩

def stEmptyWallet : Store := ⟨some ⟨[], BalVal.missing⟩, 0, Option.none, "", true⟩

/-- C5 is false as stated: a deposit requested for 10 sats that settles
with proofs summing to 7 is not rejected — the mismatched proofs are
stored (the wallet ends holding 7 sats of proofs) and the success callback
is invoked; no mismatch check exists in the settlement handler. -/
theorem deposit_mismatch_counterexample :
    (initiateDeposit envDepositSeven 10 stEmptyWallet).successArg.isSome = true ∧
    storeProofSum (initiateDeposit envDepositSeven 10 stEmptyWallet).st = 7 ∧
    ¬ (7 : Nat) = 10 := by
  decide

/-- C5 (amended): on deposit settlement the mint-delivered proofs are
appended to the wallet state and the success callback is invoked with the
freshly reconciled balance, with no coordinator-side check of the summed
amount against the requested invoice amount; when the mint delivers proofs
summing to the requested amount, as its interface specifies, the inserted
value equals that amount. -/
theorem deposit_settle_stores_token (env : DepositEnv) (amount : Nat) (st : Store)
    (w : Wallet) (token : DepositToken) (pr : String)
    (hw : st.cashuWallet = some w)
    (hs : env.startResult = .ok pr)
    (ho : env.outcome = some (.success token)) :
    (initiateDeposit env amount st).successArg.isSome = true ∧
    (initiateDeposit env amount st).st.cashuWallet =
      some (stateUpdate w token.proofs []) ∧
    sumProofs (stateUpdate w token.proofs []).proofs =
      sumProofs w.proofs + sumProofs token.proofs ∧
    (sumProofs token.proofs = amount →
      sumProofs (stateUpdate w token.proofs []).proofs = sumProofs w.proofs + amount) := by
  have hupd : (stateUpdate w token.proofs []).proofs = w.proofs ++ token.proofs := by
    simp [stateUpdate]
  have hsum : sumProofs (stateUpdate w token.proofs []).proofs =
      sumProofs w.proofs + sumProofs token.proofs := by
    rw [hupd, sumProofs_append]
  have hcw : (initiateDeposit env amount st).st.cashuWallet =
      some (stateUpdate w token.proofs []) := by
    unfold initiateDeposit
    rw [hw, hs, ho]
    dsimp only
    have := (verifyAndUpdateBalance_fields env.mint
      { st with invoice := pr, cashuWallet := some (stateUpdate w token.proofs []) }).2
    simpa using this
  refine ⟨?_, hcw, hsum, fun hm => by rw [hsum, hm]⟩
  unfold initiateDeposit
  rw [hw, hs, ho]
  dsimp only
  rfl

theorem deposit_settle_stores_token_witness :
    (initiateDeposit envDepositSeven 7 stEmptyWallet).successArg.isSome = true ∧
    (initiateDeposit envDepositSeven 7 stEmptyWallet).st.cashuWallet =
      some (stateUpdate ⟨[], BalVal.missing⟩
        [⟨7, "dep-secret", "c7", DEFAULT_MINT⟩] []) ∧
    sumProofs (stateUpdate (⟨[], BalVal.missing⟩ : Wallet)
      [⟨7, "dep-secret", "c7", DEFAULT_MINT⟩] []).proofs =
      sumProofs (⟨[], BalVal.missing⟩ : Wallet).proofs +
        sumProofs [⟨7, "dep-secret", "c7", DEFAULT_MINT⟩] ∧
    (sumProofs [(⟨7, "dep-secret", "c7", DEFAULT_MINT⟩ : Proof)] = 7 →
      sumProofs (stateUpdate (⟨[], BalVal.missing⟩ : Wallet)
        [⟨7, "dep-secret", "c7", DEFAULT_MINT⟩] []).proofs =
        sumProofs (⟨[], BalVal.missing⟩ : Wallet).proofs + 7) :=
  deposit_settle_stores_token envDepositSeven 7 stEmptyWallet
    ⟨[], BalVal.missing⟩ ⟨[⟨7, "dep-secret", "c7", DEFAULT_MINT⟩]⟩
    "lnbc-test-invoice" rfl rfl rfl

end RBE
